import Mathlib

/-!
Verification of the iOS backend lifecycle core of the winit windowing library.

The development shallowly embeds the lifecycle state machine of
`src/platform_impl/ios/app_state.rs` (the `AppStateImpl` tagged union and the
transition operations of `AppState`), the run-loop waker (`EventLoopWaker`),
the shared window-configuration state of `src/platform_impl/ios/shared.rs`,
and `Window::new` of `src/platform_impl/ios/window.rs`.

Modelling conventions:
- `Instant` timestamps are natural numbers; `CFAbsoluteTime` values live in a
  second natural-number time domain (`cur` parameters).
- A Rust panic (`panic!`, `bug!`, `unreachable!`, failed `assert!`) is a
  process abort and is modelled as `Except.error msg`; recoverable Rust
  `Result` errors are modelled with their own error type in the ok channel of
  the embedding (for example `CreationError`).
- The boxed user event handler has no observable data; invoking it is
  modelled by an explicit callback parameter `cb : Event → ControlFlow →
  ControlFlow` (the callback receives the event and may rewrite the
  `&mut ControlFlow` it is handed), and delivered events are recorded in an
  `Output` trace.
- Calls into the OS (retain/release, `makeKeyAndVisible`, the corrective
  screen/root-controller dance) are recorded as an `OSAction` trace.
-/

namespace WinitIOS

/-- Modelled from the spec: the portable `ControlFlow` policy of the library
(`Poll` / `Wait` / `WaitUntil(deadline)` / `Exit`); its definition lives in the
portable crate outside this backend's sources. Deadlines are `Instant`s,
modelled as naturals. The default policy is `Poll` (the spec's
`finish_launch` enters `ProcessingEvents` with policy `Poll`). -/
inductive ControlFlow where
  | poll
  | wait
  | waitUntil (deadline : Nat)
  | exit
  deriving DecidableEq, Repr

/-- Modelled from the spec: the portable start-cause carried by `NewEvents`
(initialization, poll tick, explicit wake, deadline reached), defined in the
portable crate outside this backend's sources. -/
inductive StartCause where
  | init
  | poll
  | waitCancelled (start : Nat) (requestedResume : Option Nat)
  | resumeTimeReached (start : Nat) (requestedResume : Nat)
  deriving DecidableEq, Repr

/-- Modelled from the spec: the portable event type `Event<()>` as routed
through this backend. Only the constructors the lifecycle core inspects are
structured (`NewEvents`, `EventsCleared`, `LoopDestroyed`, `UserEvent`);
all other OS-decoded events are opaque payloads (`windowEvent`). -/
inductive Event where
  | newEvents (cause : StartCause)
  | eventsCleared
  | loopDestroyed
  | userEvent (payload : Nat)
  | windowEvent (payload : Nat)
  deriving DecidableEq, Repr

/-- The user callback: receives an event and the current `&mut ControlFlow`,
and returns the (possibly rewritten) control flow. -/
abbrev Callback := Event → ControlFlow → ControlFlow

/-- Deliver a list of events in order, threading the control flow through the
callback (each delivery hands the callback the `&mut ControlFlow`). -/
def deliverAll (cb : Callback) (events : List Event) (cf : ControlFlow) : ControlFlow :=
  events.foldl (fun c e => cb e c) cf

/-- The next fire date of the waker's run-loop timer (`CFRunLoopTimer`).
`farFuture` is `f64::MAX` (effectively disabled), `farPast` is `f64::MIN`
(fires on the next pass), `absolute t` is a concrete `CFAbsoluteTime`. -/
inductive FireDate where
  | farFuture
  | farPast
  | absolute (t : Nat)
  deriving DecidableEq, Repr

/-- Embedding of `EventLoopWaker` (`app_state.rs`): a recurring run-loop timer
whose next fire date is reprogrammed. Freshly created with fire date
`f64::MAX`. -/
structure EventLoopWaker where
  fireDate : FireDate
  deriving DecidableEq, Repr

/-- `EventLoopWaker::stop`: push the fire date to the far future. -/
def EventLoopWaker.stop (w : EventLoopWaker) : EventLoopWaker :=
  { w with fireDate := .farFuture }

/-- `EventLoopWaker::start`: set the fire date to the far past, so the timer
fires on the next run-loop pass. -/
def EventLoopWaker.start (w : EventLoopWaker) : EventLoopWaker :=
  { w with fireDate := .farPast }

/-- `EventLoopWaker::start_at(instant)`: if `now >= instant`, behaves like
`start`; otherwise programs the fire date to the current `CFAbsoluteTime`
(`cur`) plus the delta from `now` to `instant`. -/
def EventLoopWaker.start_at (w : EventLoopWaker) (now cur instant : Nat) : EventLoopWaker :=
  if instant ≤ now then w.start
  else { w with fireDate := .absolute (cur + (instant - now)) }

/-- Interpret a programmed fire date back in the `Instant` domain, given the
correspondence `cur ↔ now` between the two clocks at programming time:
`none` means no future fire is scheduled, `some i` means the timer fires at
instant `i` (`farPast` fires immediately, that is at `now`). -/
def fireInstant (cur now : Nat) : FireDate → Option Nat
  | .farFuture => none
  | .farPast => some now
  | .absolute x => some (now + (x - cur))

/-- Calls from the lifecycle core into the OS, recorded as a trace. `retain` /
`release` are the reference-count operations on a queued `UIWindow`;
`screenDance` is the corrective screen and root-view-controller
detach/reattach performed after launch. -/
inductive OSAction where
  | retain (window : Nat)
  | release (window : Nat)
  | makeKeyAndVisible (window : Nat)
  | screenDance (window : Nat)
  deriving DecidableEq, Repr

/-- Embedding of the `AppStateImpl` tagged union (`app_state.rs` lines 33-55):
the lifecycle phase together with the data each phase owns. Window handles
(`id`) are opaque naturals. The boxed event handler carried by `Launching`,
`ProcessingEvents`, `Waiting` and `PollFinished` has no observable data and is
modelled by the callback parameter of each operation. -/
inductive AppStateImpl where
  | notLaunched (queued_windows : List Nat) (queued_events : List Event)
  | launching (queued_windows : List Nat) (queued_events : List Event)
  | processingEvents (active_control_flow : ControlFlow)
  | waiting (start : Nat)
  | pollFinished
  | terminated
  deriving DecidableEq, Repr

/-- Embedding of the `AppState` struct: the lifecycle phase, the control flow
most recently set by the user callback, and the waker. (The `capabilities`
field is derived once at startup and modelled separately by
`capabilitiesFromVersion`.) -/
structure AppState where
  app_state : AppStateImpl
  control_flow : ControlFlow
  waker : EventLoopWaker
  deriving DecidableEq, Repr

/-- The initial `AppState` built lazily on first access: phase `NotLaunched`
with empty queues, default control flow, waker timer created with a
far-future fire date. -/
def initialAppState : AppState :=
  { app_state := .notLaunched [] []
    control_flow := .poll
    waker := { fireDate := .farFuture } }

/-- Observable output of one lifecycle operation: the events delivered to the
user callback in order, the warning diagnostics recorded, and the OS calls
performed. -/
structure Output where
  delivered : List Event := []
  warnings : List String := []
  osActions : List OSAction := []
  deriving DecidableEq, Repr

/-- True exactly when an operation aborted the process (a Rust panic). -/
def isFatal {ε α : Type} (r : Except ε α) : Bool :=
  match r with
  | .error _ => true
  | .ok _ => false

/-- Embedding of `AppState::set_key_window` (`app_state.rs` lines 119-130):
in `NotLaunched` the window is appended to `queued_windows` and retained; in
`ProcessingEvents` the OS is asked to make it key and visible; in
`Terminated` the process aborts with a diagnostic; all other phases hit
`unreachable!()`. -/
def set_key_window (window : Nat) (s : AppState) : Except String (AppState × Output) :=
  match s.app_state with
  | .notLaunched qw qe =>
      .ok (⟨.notLaunched (qw ++ [window]) qe, s.control_flow, s.waker⟩,
           { osActions := [.retain window] })
  | .processingEvents acf =>
      .ok (⟨.processingEvents acf, s.control_flow, s.waker⟩,
           { osActions := [.makeKeyAndVisible window] })
  | .terminated => .error "Attempt to create a Window after the app has terminated"
  | _ => .error "internal error: entered unreachable code"

/-- Embedding of `AppState::will_launch` (`app_state.rs` lines 132-152): moves
the queued windows and events from `NotLaunched` into `Launching` together
with the queued event handler; any other phase aborts. -/
def will_launch (s : AppState) : Except String (AppState × Output) :=
  match s.app_state with
  | .notLaunched qw qe => .ok (⟨.launching qw qe, s.control_flow, s.waker⟩, {})
  | _ => .error "winit iOS expected the app to be in a NotLaunched state, but was not - please file an issue"

/-- The OS-call trace of the post-launch loop over the queued windows
(`app_state.rs` lines 196-223): for each queued window, if its retain count
exceeds 1 the corrective screen/root-controller dance runs and the window is
made key and visible; in all cases the enqueue-time retain is released. -/
def launchActions (rc : Nat → Nat) : List Nat → List OSAction
  | [] => []
  | w :: ws =>
      (if 1 < rc w then [.screenDance w, .makeKeyAndVisible w] else [])
        ++ [.release w] ++ launchActions rc ws

/-- Embedding of `AppState::did_finish_launching` (`app_state.rs` lines
154-224): valid only from `Launching`; moves the handler and the drained
queues into `ProcessingEvents` with active policy `Poll`, delivers
`NewEvents(Init)`, then each queued event in order, then the queued user
events (`userEvents` models the proxy receiver's content), and finally runs
the corrective dance / release loop over the queued windows. -/
def did_finish_launching (rc : Nat → Nat) (userEvents : List Nat) (cb : Callback)
    (s : AppState) : Except String (AppState × Output) :=
  match s.app_state with
  | .launching qw qe =>
      let evs := Event.newEvents .init :: (qe ++ userEvents.map Event.userEvent)
      .ok (⟨.processingEvents .poll, deliverAll cb evs s.control_flow, s.waker⟩,
           { delivered := evs, osActions := launchActions rc qw })
  | _ => .error "winit iOS expected the app to be in a Launching state, but was not - please file an issue"

/-- Embedding of `AppState::handle_wakeup_transition` (`app_state.rs` lines
227-308): dispatches on the current control flow; before launch it is a
no-op; from `PollFinished` (policy `Poll`) or `Waiting` (policy `Wait` /
`WaitUntil`) it moves to `ProcessingEvents` with the resolved active policy
and delivers the synthesized `NewEvents` start cause; every other
combination aborts. -/
def handle_wakeup_transition (now : Nat) (cb : Callback) (s : AppState) :
    Except String (AppState × Output) :=
  match s.control_flow with
  | .poll =>
      match s.app_state with
      | .notLaunched _ _ | .launching _ _ => .ok (s, {})
      | .pollFinished =>
          let ev := Event.newEvents .poll
          .ok (⟨.processingEvents .poll, cb ev s.control_flow, s.waker⟩,
               { delivered := [ev] })
      | _ => .error "winit iOS bug, file an issue: EventHandler unexpectedly started polling"
  | .wait =>
      match s.app_state with
      | .notLaunched _ _ | .launching _ _ => .ok (s, {})
      | .waiting start =>
          let ev := Event.newEvents (.waitCancelled start none)
          .ok (⟨.processingEvents .wait, cb ev s.control_flow, s.waker⟩,
               { delivered := [ev] })
      | _ => .error "winit iOS bug, file an issue: EventHandler unexpectedly woke up"
  | .waitUntil t =>
      match s.app_state with
      | .notLaunched _ _ | .launching _ _ => .ok (s, {})
      | .waiting start =>
          let ev := if t ≤ now
            then Event.newEvents (.resumeTimeReached start t)
            else Event.newEvents (.waitCancelled start (some t))
          .ok (⟨.processingEvents (.waitUntil t), cb ev s.control_flow, s.waker⟩,
               { delivered := [ev] })
      | _ => .error "winit iOS bug, file an issue: EventHandler unexpectedly woke up"
  | .exit => .error "winit iOS bug, file an issue: unexpected controlflow Exit"

/-- Embedding of `AppState::handle_nonuser_event` (`app_state.rs` lines
310-328): before launch the event is buffered in `queued_events`; in
`ProcessingEvents` it is delivered immediately; in `Waiting`, `PollFinished`
or `Terminated` the process aborts with a diagnostic. -/
def handle_nonuser_event (ev : Event) (cb : Callback) (s : AppState) :
    Except String (AppState × Output) :=
  match s.app_state with
  | .notLaunched qw qe => .ok (⟨.notLaunched qw (qe ++ [ev]), s.control_flow, s.waker⟩, {})
  | .launching qw qe => .ok (⟨.launching qw (qe ++ [ev]), s.control_flow, s.waker⟩, {})
  | .processingEvents acf =>
      .ok (⟨.processingEvents acf, cb ev s.control_flow, s.waker⟩, { delivered := [ev] })
  | _ => .error "winit iOS bug, file an issue: unexpected attempted to process an event"

/-- Embedding of `AppState::handle_user_events` (`app_state.rs` lines
330-341): before launch a no-op; in `ProcessingEvents` delivers every queued
user event (`userEvents` models the proxy receiver's content); otherwise the
process aborts. -/
def handle_user_events (userEvents : List Nat) (cb : Callback) (s : AppState) :
    Except String (AppState × Output) :=
  match s.app_state with
  | .notLaunched _ _ | .launching _ _ => .ok (s, {})
  | .processingEvents acf =>
      let evs := userEvents.map Event.userEvent
      .ok (⟨.processingEvents acf, deliverAll cb evs s.control_flow, s.waker⟩,
           { delivered := evs })
  | _ => .error "winit iOS bug, file an issue: unexpected attempted to process an event"

/-- Embedding of `AppState::handle_events_cleared` (`app_state.rs` lines
343-449): before launch a no-op; must otherwise be in `ProcessingEvents`.
Compares the active control flow from the start of the iteration (`old`)
with the one now stored (`new`), writes the next phase (`PollFinished` for
`Poll`, `Waiting` with a fresh `start` stamp otherwise) and reprograms the
waker on a policy change; then delivers `EventsCleared` from the new phase.
In the `(_, Exit)` arm the code warns, restores `old` — but leaves
`app_state` as `ProcessingEvents`, so the final delivery match falls into
`unreachable!()` and the process aborts. -/
def handle_events_cleared (now cur : Nat) (cb : Callback) (s : AppState) :
    Except String (AppState × Output) :=
  match s.app_state with
  | .notLaunched _ _ | .launching _ _ => .ok (s, {})
  | .processingEvents old =>
      match old, s.control_flow with
      | .poll, .poll =>
          .ok (⟨.pollFinished, cb .eventsCleared s.control_flow, s.waker⟩,
               { delivered := [.eventsCleared] })
      | .wait, .wait =>
          .ok (⟨.waiting now, cb .eventsCleared s.control_flow, s.waker⟩,
               { delivered := [.eventsCleared] })
      | .waitUntil o, .waitUntil n =>
          if o = n then
            .ok (⟨.waiting now, cb .eventsCleared s.control_flow, s.waker⟩,
                 { delivered := [.eventsCleared] })
          else
            .ok (⟨.waiting now, cb .eventsCleared s.control_flow, s.waker.start_at now cur n⟩,
                 { delivered := [.eventsCleared] })
      | _, .wait =>
          .ok (⟨.waiting now, cb .eventsCleared s.control_flow, s.waker.stop⟩,
               { delivered := [.eventsCleared] })
      | _, .waitUntil n =>
          .ok (⟨.waiting now, cb .eventsCleared s.control_flow, s.waker.start_at now cur n⟩,
               { delivered := [.eventsCleared] })
      | _, .poll =>
          .ok (⟨.pollFinished, cb .eventsCleared s.control_flow, s.waker.start⟩,
               { delivered := [.eventsCleared] })
      | _, .exit => .error "internal error: entered unreachable code"
  | _ => .error "winit iOS bug, file an issue: EventHandler expected to be processing events, but was not"

/-- Embedding of `AppState::terminated` (`app_state.rs` lines 451-458):
replaces the phase with `Terminated`; if the old phase was
`ProcessingEvents`, delivers the final `LoopDestroyed`; otherwise the
process aborts. -/
def terminated (cb : Callback) (s : AppState) : Except String (AppState × Output) :=
  match s.app_state with
  | .processingEvents _ =>
      .ok (⟨.terminated, cb .loopDestroyed s.control_flow, s.waker⟩,
           { delivered := [.loopDestroyed] })
  | _ => .error "winit iOS bug, file an issue: LoopDestroyed happened while not processing events"

/-- One lifecycle operation, as invoked by the OS callbacks or the window
glue, together with the environment data the call observes (current time,
proxy-receiver content, retain counts, user callback). -/
inductive Op where
  | setKeyWindow (window : Nat)
  | willLaunch
  | didFinishLaunching (rc : Nat → Nat) (userEvents : List Nat) (cb : Callback)
  | handleWakeup (now : Nat) (cb : Callback)
  | handleNonuserEvent (ev : Event) (cb : Callback)
  | handleUserEvents (userEvents : List Nat) (cb : Callback)
  | handleEventsCleared (now cur : Nat) (cb : Callback)
  | terminate (cb : Callback)

/-- Dispatch one lifecycle operation on the state machine. -/
def step : Op → AppState → Except String (AppState × Output)
  | .setKeyWindow w, s => set_key_window w s
  | .willLaunch, s => will_launch s
  | .didFinishLaunching rc ues cb, s => did_finish_launching rc ues cb s
  | .handleWakeup now cb, s => handle_wakeup_transition now cb s
  | .handleNonuserEvent ev cb, s => handle_nonuser_event ev cb s
  | .handleUserEvents ues cb, s => handle_user_events ues cb s
  | .handleEventsCleared now cur cb, s => handle_events_cleared now cur cb s
  | .terminate cb, s => terminated cb s

/-- Run a sequence of lifecycle operations; any abort stops the run. -/
def runOps : List Op → AppState → Except String AppState
  | [], s => .ok s
  | op :: ops, s =>
      match step op s with
      | .ok (s', _) => runOps ops s'
      | .error e => .error e

/-- The phase component of a lifecycle state, forgetting the payload. -/
inductive Phase where
  | notLaunched
  | launching
  | processingEvents
  | waiting
  | pollFinished
  | terminated
  deriving DecidableEq, Repr

/-- The phase of an `AppState`. -/
def AppState.phase (s : AppState) : Phase :=
  match s.app_state with
  | .notLaunched _ _ => .notLaunched
  | .launching _ _ => .launching
  | .processingEvents _ => .processingEvents
  | .waiting _ => .waiting
  | .pollFinished => .pollFinished
  | .terminated => .terminated

/-- The transition graph claimed by the spec:
`NotLaunched → Launching → ProcessingEvents ⇄ (Waiting | PollFinished) →
Terminated`, with stuttering only where an operation legitimately leaves the
phase unchanged; no edge leaves `Terminated`, no edge re-enters
`NotLaunched`, and `Launching` is entered only from `NotLaunched`. -/
def phaseAllowed : Phase → Phase → Bool
  | .notLaunched, .notLaunched => true
  | .notLaunched, .launching => true
  | .launching, .launching => true
  | .launching, .processingEvents => true
  | .processingEvents, .processingEvents => true
  | .processingEvents, .waiting => true
  | .processingEvents, .pollFinished => true
  | .processingEvents, .terminated => true
  | .waiting, .processingEvents => true
  | .pollFinished, .processingEvents => true
  | _, _ => false

/-- The phases visited by a run: the phase before the first operation and
after each successful one (truncated at an abort). -/
def visits : List Op → AppState → List Phase
  | [], s => [s.phase]
  | op :: ops, s =>
      s.phase :: (match step op s with
        | .ok (s', _) => visits ops s'
        | .error _ => [])

/-- Embedding of `NSOperatingSystemVersion` (`ffi.rs` lines 29-33); the
components are non-negative machine integers, modelled as naturals. -/
structure NSOperatingSystemVersion where
  major : Nat
  minor : Nat
  patch : Nat
  deriving DecidableEq, Repr

/-- Embedding of `Capabilities` (`app_state.rs` lines 461-463). -/
structure Capabilities where
  supports_safe_area : Bool
  deriving DecidableEq, Repr

/-- Embedding of `impl From<NSOperatingSystemVersion> for Capabilities`
(`app_state.rs` lines 465-473): asserts iOS 8 or newer (an assertion failure
is a process abort), then records whether the safe-area API is available. -/
def capabilitiesFromVersion (v : NSOperatingSystemVersion) : Except String Capabilities :=
  if 8 ≤ v.major then .ok { supports_safe_area := decide (11 ≤ v.major) }
  else .error "winit current requires iOS version 8 or greater"

/-- Embedding of `OSVersion` (`shared.rs` lines 6-10). -/
structure OSVersion where
  major : Nat
  minor : Nat
  deriving DecidableEq, Repr

/-- Modelled from the spec: the portable `CreationError` returned by window
creation; its definition lives in the portable crate outside this backend's
sources. Only the `OsError(message)` variant is used here. -/
inductive CreationError where
  | osError (msg : String)
  deriving DecidableEq, Repr

/-- Modelled from the spec: the portable `WindowAttributes`, restricted to
the fields this backend's `Window::new` inspects (the remaining fields pass
through unread). Dimensions are opaque. -/
structure WindowAttributes where
  min_dimensions : Option (Nat × Nat) := none
  max_dimensions : Option (Nat × Nat) := none
  always_on_top : Bool := false
  deriving DecidableEq, Repr

/-- Embedding of `PlatformSpecificWindowBuilderAttributes` (`window.rs` lines
340-344); the Objective-C root view class is an opaque identifier. -/
structure PlatformSpecificWindowBuilderAttributes where
  root_view_class : Nat
  status_bar_hidden : Bool
  content_scale_factor : Option Nat
  deriving DecidableEq, Repr

/-- Embedding of `ConfiguredWindow` (`shared.rs` lines 82-85). -/
structure ConfiguredWindow where
  window_attributes : WindowAttributes
  platform_attributes : PlatformSpecificWindowBuilderAttributes
  deriving DecidableEq, Repr

/-- Embedding of `Running` (`shared.rs` lines 87-91); the native handles are
opaque naturals. -/
structure Running where
  window : Nat
  view_controller : Nat
  view : Nat
  deriving DecidableEq, Repr

/-- Embedding of the `SharedImpl` tagged union (`shared.rs` lines 12-16). -/
inductive SharedImpl where
  | unconfiguredWindow
  | configuredWindow (config : ConfiguredWindow)
  | running (r : Running)
  deriving DecidableEq, Repr

/-- Embedding of `Shared` (`shared.rs` lines 18-21). -/
structure Shared where
  shared : SharedImpl
  os_version : OSVersion
  deriving DecidableEq, Repr

/-- Embedding of `Shared::default` (`shared.rs` lines 23-41), with the OS
version query made a parameter: asserts iOS 8 or newer (an assertion failure
is a process abort) and starts in `UnconfiguredWindow`. -/
def sharedDefaultFromVersion (v : NSOperatingSystemVersion) : Except String Shared :=
  if 8 ≤ v.major then
    .ok { shared := .unconfiguredWindow, os_version := { major := v.major, minor := v.minor } }
  else .error "winit current requires iOS version 8 or greater"

/-- Embedding of `Shared::configure` (`shared.rs` lines 44-54): succeeds and
stores the configuration exactly from `UnconfiguredWindow`; with a window
already configured or running it returns a `CreationError` to the caller. -/
def Shared.configure (s : Shared) (config : ConfiguredWindow) : Except CreationError Shared :=
  match s.shared with
  | .unconfiguredWindow => .ok { s with shared := .configuredWindow config }
  | .configuredWindow _ => .error (.osError "only one Window is currently supported on iOS")
  | .running _ => .error (.osError "only one Window is currently supported on iOS")

/-- Embedding of the `Window` handle (`window.rs` lines 30-32); its only
field is the shared reference, returned alongside. -/
structure Window where
  deriving DecidableEq, Repr

/-- Embedding of `Window::new` (`window.rs` lines 38-63): warns about
unsupported attributes, then configures the shared state, propagating any
`CreationError` as its own result; the second component is the warning
trace. -/
def Window.new (s : Shared) (window_attributes : WindowAttributes)
    (platform_attributes : PlatformSpecificWindowBuilderAttributes) :
    Except CreationError (Window × Shared) × List String :=
  let warns :=
    (if window_attributes.min_dimensions.isSome
      then ["WindowAttributes::min_dimensions is ignored on iOS"] else [])
    ++ (if window_attributes.max_dimensions.isSome
      then ["WindowAttributes::max_dimensions is ignored on iOS"] else [])
    ++ (if window_attributes.always_on_top
      then ["WindowAttributes::always_on_top is unsupported on iOS"] else [])
  match s.configure { window_attributes, platform_attributes } with
  | .ok s' => (.ok (⟨⟩, s'), warns)
  | .error e => (.error e, warns)

/-! Helper lemmas for the phase-monotonicity trace argument. -/

theorem step_allowed (op : Op) (s s' : AppState) (out : Output)
    (h : step op s = Except.ok (s', out)) :
    phaseAllowed s.phase s'.phase = true := by
  obtain ⟨a, cf, wk⟩ := s
  cases op <;> cases a <;> cases cf <;>
    simp only [step, set_key_window, will_launch, did_finish_launching,
      handle_wakeup_transition, handle_nonuser_event, handle_user_events,
      handle_events_cleared, terminated] at h <;>
    (repeat' split at h) <;>
    first
      | (simp only [Except.ok.injEq, Prod.mk.injEq] at h
         obtain ⟨h1, h2⟩ := h
         subst h1
         rfl)
      | exact Except.noConfusion h

theorem visits_head (ops : List Op) (s : AppState) :
    (visits ops s).head? = some s.phase := by
  cases ops with
  | nil => rfl
  | cons op ops => simp [visits]

theorem visits_chain (ops : List Op) (s s' : AppState)
    (h : runOps ops s = Except.ok s') :
    List.Chain' (fun a b => phaseAllowed a b = true) (visits ops s) := by
  induction ops generalizing s with
  | nil => simp [visits]
  | cons op ops ih =>
      simp only [runOps] at h
      cases hst : step op s with
      | error e => rw [hst] at h; simp at h
      | ok r =>
          obtain ⟨s1, out⟩ := r
          rw [hst] at h
          dsimp only at h
          simp only [visits]
          rw [hst]
          dsimp only
          rw [List.chain'_cons']
          refine ⟨?_, ih s1 h⟩
          intro b hb
          rw [visits_head ops s1] at hb
          simp only [Option.mem_def, Option.some.injEq] at hb
          subst hb
          exact step_allowed op s s1 out hst

/-! Helper lemmas about the post-launch OS-action trace. -/

theorem launchActions_count_release (rc : Nat → Nat) (wd : Nat) :
    ∀ qw : List Nat, (launchActions rc qw).count (OSAction.release wd) = qw.count wd := by
  intro qw
  induction qw with
  | nil => rfl
  | cons w ws ih =>
      by_cases hw : wd = w
      · subst hw
        by_cases h : 1 < rc wd <;>
          simp [launchActions, h, List.count_append, List.count_cons, ih]
      · by_cases h : 1 < rc w <;>
          simp [launchActions, h, hw, List.count_append, List.count_cons, ih]

theorem launchActions_count_makeKey (rc : Nat → Nat) (wd : Nat) :
    ∀ qw : List Nat,
      (launchActions rc qw).count (OSAction.makeKeyAndVisible wd)
        = if 1 < rc wd then qw.count wd else 0 := by
  intro qw
  induction qw with
  | nil => simp [launchActions]
  | cons w ws ih =>
      by_cases hw : wd = w
      · subst hw
        by_cases h : 1 < rc wd <;>
          simp [launchActions, h, List.count_append, List.count_cons, ih]
      · by_cases h : 1 < rc w <;>
          by_cases h2 : 1 < rc wd <;>
            simp [launchActions, h, h2, hw, List.count_append, List.count_cons, ih]

theorem launchActions_count_dance (rc : Nat → Nat) (wd : Nat) :
    ∀ qw : List Nat,
      (launchActions rc qw).count (OSAction.screenDance wd)
        = if 1 < rc wd then qw.count wd else 0 := by
  intro qw
  induction qw with
  | nil => simp [launchActions]
  | cons w ws ih =>
      by_cases hw : wd = w
      · subst hw
        by_cases h : 1 < rc wd <;>
          simp [launchActions, h, List.count_append, List.count_cons, ih]
      · by_cases h : 1 < rc w <;>
          by_cases h2 : 1 < rc wd <;>
            simp [launchActions, h, h2, hw, List.count_append, List.count_cons, ih]

/-- C2: for every event passed to `handle_nonuser_event`, in `NotLaunched` or
`Launching` the event is appended to the queued-events sequence for later
replay; in `ProcessingEvents` it is delivered immediately to the user
callback; in `Waiting`, `PollFinished` or `Terminated` the call is fatal
(process abort with a diagnostic), never a silent drop. -/
theorem c2_nonuser_event_buffer_deliver_or_abort :
    ∀ (qw : List Nat) (qe : List Event) (acf cf : ControlFlow)
      (w : EventLoopWaker) (st : Nat) (ev : Event) (cb : Callback),
      handle_nonuser_event ev cb ⟨.notLaunched qw qe, cf, w⟩ =
        .ok (⟨.notLaunched qw (qe ++ [ev]), cf, w⟩, {}) ∧
      handle_nonuser_event ev cb ⟨.launching qw qe, cf, w⟩ =
        .ok (⟨.launching qw (qe ++ [ev]), cf, w⟩, {}) ∧
      handle_nonuser_event ev cb ⟨.processingEvents acf, cf, w⟩ =
        .ok (⟨.processingEvents acf, cb ev cf, w⟩, { delivered := [ev] }) ∧
      handle_nonuser_event ev cb ⟨.waiting st, cf, w⟩ =
        .error "winit iOS bug, file an issue: unexpected attempted to process an event" ∧
      handle_nonuser_event ev cb ⟨.pollFinished, cf, w⟩ =
        .error "winit iOS bug, file an issue: unexpected attempted to process an event" ∧
      handle_nonuser_event ev cb ⟨.terminated, cf, w⟩ =
        .error "winit iOS bug, file an issue: unexpected attempted to process an event" := by
  intros
  exact ⟨rfl, rfl, rfl, rfl, rfl, rfl⟩

/-- C3: the claim says setting `ControlFlow::Exit` during an iteration is
downgraded by `handle_events_cleared` with a warning, never a propagated
error. The code instead aborts: the `(_, Exit)` arm of
`AppState::handle_events_cleared` warns and restores the previous policy but
leaves `app_state` as `ProcessingEvents`, so the final `EventsCleared`
delivery match falls into `unreachable!()`. This theorem runs the failing
scenario from the initial state: launch, set `Exit` during the `Init`
delivery, then observe `handle_events_cleared` abort. -/
theorem c3_exit_downgrade_reaches_unreachable :
    runOps
      [Op.willLaunch,
       Op.didFinishLaunching (fun _ => 0) [] (fun _ _ => ControlFlow.exit),
       Op.handleEventsCleared 0 0 (fun _ c => c)]
      initialAppState
      = Except.error "internal error: entered unreachable code" := rfl

/-- C4: handling a wakeup from `Waiting` with policy `WaitUntil t`: at or
past the requested resume time the callback receives
`NewEvents(ResumeTimeReached)`, before it the callback receives
`NewEvents(WaitCancelled)` carrying `Some t`; in both cases the phase
becomes `ProcessingEvents` with active policy `WaitUntil t`. -/
theorem c4_wait_until_wakeup_resolution :
    ∀ (now start t : Nat) (w : EventLoopWaker) (cb : Callback),
      handle_wakeup_transition now cb ⟨.waiting start, .waitUntil t, w⟩ =
        (if t ≤ now then
          .ok (⟨.processingEvents (.waitUntil t),
                cb (.newEvents (.resumeTimeReached start t)) (.waitUntil t), w⟩,
               { delivered := [.newEvents (.resumeTimeReached start t)] })
        else
          .ok (⟨.processingEvents (.waitUntil t),
                cb (.newEvents (.waitCancelled start (some t))) (.waitUntil t), w⟩,
               { delivered := [.newEvents (.waitCancelled start (some t))] })) := by
  intro now start t w cb
  by_cases h : t ≤ now <;> simp [handle_wakeup_transition, h]

/-- C5: after events-cleared handling with former policy `Poll`: new policy
`WaitUntil t` programs the waker through `start_at` — a future `t` yields
the fire date `cur + (t - now)` in the run-loop absolute-time domain, which
reads back as instant `t`, and a past `t` yields the far-past fire date
(fires immediately); new policy `Wait` stops the waker (far-future fire
date, no future fire scheduled). -/
theorem c5_control_flow_waker_mapping :
    ∀ (now cur t : Nat) (w : EventLoopWaker) (cb : Callback),
      handle_events_cleared now cur cb ⟨.processingEvents .poll, .waitUntil t, w⟩ =
        .ok (⟨.waiting now, cb .eventsCleared (.waitUntil t), w.start_at now cur t⟩,
             { delivered := [.eventsCleared] }) ∧
      (t ≤ now → (w.start_at now cur t).fireDate = .farPast) ∧
      (now < t →
        (w.start_at now cur t).fireDate = .absolute (cur + (t - now)) ∧
        fireInstant cur now (w.start_at now cur t).fireDate = some t) ∧
      handle_events_cleared now cur cb ⟨.processingEvents .poll, .wait, w⟩ =
        .ok (⟨.waiting now, cb .eventsCleared .wait, w.stop⟩,
             { delivered := [.eventsCleared] }) ∧
      (w.stop).fireDate = .farFuture ∧
      fireInstant cur now (w.stop).fireDate = none := by
  intro now cur t w cb
  refine ⟨rfl, ?_, ?_, rfl, rfl, rfl⟩
  · intro h
    simp [EventLoopWaker.start_at, EventLoopWaker.start, h]
  · intro h
    have h' : ¬ t ≤ now := by omega
    refine ⟨by simp [EventLoopWaker.start_at, h'], ?_⟩
    simp only [EventLoopWaker.start_at, h', if_false, fireInstant]
    congr 1
    omega

theorem c5_control_flow_waker_mapping_witness :
    ((⟨.farFuture⟩ : EventLoopWaker).start_at 3 100 5).fireDate = .absolute (100 + (5 - 3)) ∧
    ((⟨.farFuture⟩ : EventLoopWaker).start_at 7 100 5).fireDate = .farPast :=
  ⟨((c5_control_flow_waker_mapping 3 100 5 ⟨.farFuture⟩ (fun _ c => c)).2.2.1 (by decide)).1,
   (c5_control_flow_waker_mapping 7 100 5 ⟨.farFuture⟩ (fun _ c => c)).2.1 (by decide)⟩

/-- C6: `did_finish_launching` is valid only from `Launching` (fatal from
every other phase); it enters `ProcessingEvents` with policy `Poll` and
delivers, in order, `NewEvents(Init)`, each queued event in enqueue order,
then the queued user events; afterwards, each queued window with reference
count above 1 gets the corrective dance and is made key and visible exactly
once, and every queued window's enqueue-time retain is released exactly
once. -/
theorem c6_did_finish_launching_characterization :
    ∀ (qw : List Nat) (qe : List Event) (rc : Nat → Nat) (ues : List Nat)
      (cb : Callback) (cf acf : ControlFlow) (w : EventLoopWaker) (st : Nat),
      did_finish_launching rc ues cb ⟨.launching qw qe, cf, w⟩ =
        .ok (⟨.processingEvents .poll,
              deliverAll cb (Event.newEvents .init :: (qe ++ ues.map Event.userEvent)) cf, w⟩,
             { delivered := Event.newEvents .init :: (qe ++ ues.map Event.userEvent),
               osActions := launchActions rc qw }) ∧
      (∀ wd, (launchActions rc qw).count (OSAction.release wd) = qw.count wd) ∧
      (∀ wd, (launchActions rc qw).count (OSAction.makeKeyAndVisible wd)
          = if 1 < rc wd then qw.count wd else 0) ∧
      (∀ wd, (launchActions rc qw).count (OSAction.screenDance wd)
          = if 1 < rc wd then qw.count wd else 0) ∧
      isFatal (did_finish_launching rc ues cb ⟨.notLaunched qw qe, cf, w⟩) = true ∧
      isFatal (did_finish_launching rc ues cb ⟨.processingEvents acf, cf, w⟩) = true ∧
      isFatal (did_finish_launching rc ues cb ⟨.waiting st, cf, w⟩) = true ∧
      isFatal (did_finish_launching rc ues cb ⟨.pollFinished, cf, w⟩) = true ∧
      isFatal (did_finish_launching rc ues cb ⟨.terminated, cf, w⟩) = true := by
  intro qw qe rc ues cb cf acf w st
  exact ⟨rfl, fun wd => launchActions_count_release rc wd qw,
         fun wd => launchActions_count_makeKey rc wd qw,
         fun wd => launchActions_count_dance rc wd qw, rfl, rfl, rfl, rfl, rfl⟩

/-- C7: `terminated` invoked in `ProcessingEvents` delivers a final
`LoopDestroyed` and moves the phase to `Terminated`; invoked from any other
phase it is fatal with a diagnostic; and from `Terminated` every further
lifecycle operation is fatal, so no further callback invocation is
possible. -/
theorem c7_terminate_loop_destroyed :
    ∀ (acf cf : ControlFlow) (w : EventLoopWaker) (cb : Callback)
      (qw : List Nat) (qe : List Event) (st : Nat),
      terminated cb ⟨.processingEvents acf, cf, w⟩ =
        .ok (⟨.terminated, cb .loopDestroyed cf, w⟩, { delivered := [.loopDestroyed] }) ∧
      terminated cb ⟨.notLaunched qw qe, cf, w⟩ =
        .error "winit iOS bug, file an issue: LoopDestroyed happened while not processing events" ∧
      terminated cb ⟨.launching qw qe, cf, w⟩ =
        .error "winit iOS bug, file an issue: LoopDestroyed happened while not processing events" ∧
      terminated cb ⟨.waiting st, cf, w⟩ =
        .error "winit iOS bug, file an issue: LoopDestroyed happened while not processing events" ∧
      terminated cb ⟨.pollFinished, cf, w⟩ =
        .error "winit iOS bug, file an issue: LoopDestroyed happened while not processing events" ∧
      terminated cb ⟨.terminated, cf, w⟩ =
        .error "winit iOS bug, file an issue: LoopDestroyed happened while not processing events" ∧
      (∀ op : Op, isFatal (step op ⟨.terminated, cf, w⟩) = true) := by
  intro acf cf w cb qw qe st
  refine ⟨rfl, rfl, rfl, rfl, rfl, rfl, ?_⟩
  intro op
  cases op <;> first | rfl | (cases cf <;> rfl)

/-- C8 counterexample: the claim says `set_key_window` in `Terminated` fails
with a reported error value; in fact the call never returns to the caller —
it aborts the process (a panic), so there is no `ok` result at all. -/
theorem c8_set_key_window_no_error_value :
    ¬ ∃ r, set_key_window 0 ⟨.terminated, .poll, ⟨.farFuture⟩⟩ = Except.ok r := by
  rintro ⟨r, h⟩
  simp [set_key_window] at h

/-- C8 amended: `set_key_window` in `NotLaunched` appends the handle to
`queued_windows` and retains it; in `ProcessingEvents` it immediately asks
the OS to make the window key and visible; in `Terminated` it aborts the
process with a diagnostic about creating a `Window` after termination
(rather than returning an error value); any other phase is an
internal-consistency error (`unreachable!`). -/
theorem c8_set_key_window_amended :
    ∀ (qw : List Nat) (qe : List Event) (acf cf : ControlFlow)
      (w : EventLoopWaker) (st win : Nat),
      set_key_window win ⟨.notLaunched qw qe, cf, w⟩ =
        .ok (⟨.notLaunched (qw ++ [win]) qe, cf, w⟩, { osActions := [.retain win] }) ∧
      set_key_window win ⟨.processingEvents acf, cf, w⟩ =
        .ok (⟨.processingEvents acf, cf, w⟩, { osActions := [.makeKeyAndVisible win] }) ∧
      set_key_window win ⟨.terminated, cf, w⟩ =
        .error "Attempt to create a Window after the app has terminated" ∧
      set_key_window win ⟨.launching qw qe, cf, w⟩ =
        .error "internal error: entered unreachable code" ∧
      set_key_window win ⟨.waiting st, cf, w⟩ =
        .error "internal error: entered unreachable code" ∧
      set_key_window win ⟨.pollFinished, cf, w⟩ =
        .error "internal error: entered unreachable code" := by
  intros
  exact ⟨rfl, rfl, rfl, rfl, rfl, rfl⟩

/-- C9: `Shared::configure` succeeds (stores the configuration) exactly from
`UnconfiguredWindow`; with a window already configured or running it returns
an explicit `CreationError` to the caller, which `Window::new` propagates as
its own result. -/
theorem c9_single_window_configuration :
    ∀ (v : OSVersion) (c c' : ConfiguredWindow) (r : Running)
      (wa : WindowAttributes) (pa : PlatformSpecificWindowBuilderAttributes),
      Shared.configure ⟨.unconfiguredWindow, v⟩ c = .ok ⟨.configuredWindow c, v⟩ ∧
      Shared.configure ⟨.configuredWindow c', v⟩ c =
        .error (.osError "only one Window is currently supported on iOS") ∧
      Shared.configure ⟨.running r, v⟩ c =
        .error (.osError "only one Window is currently supported on iOS") ∧
      (Window.new ⟨.unconfiguredWindow, v⟩ wa pa).1 =
        .ok (⟨⟩, ⟨.configuredWindow ⟨wa, pa⟩, v⟩) ∧
      (Window.new ⟨.configuredWindow c', v⟩ wa pa).1 =
        .error (.osError "only one Window is currently supported on iOS") ∧
      (Window.new ⟨.running r, v⟩ wa pa).1 =
        .error (.osError "only one Window is currently supported on iOS") := by
  intros
  exact ⟨rfl, rfl, rfl, rfl, rfl, rfl⟩

/-- C10: deriving the capabilities (and the shared state) from the OS
version aborts exactly for major versions below 8; for major versions of at
least 8 the `supports_safe_area` capability is true exactly when the major
version is at least 11, and the shared state starts unconfigured with the
queried version recorded. -/
theorem c10_capabilities_from_version :
    ∀ v : NSOperatingSystemVersion,
      (isFatal (capabilitiesFromVersion v) = true ↔ v.major < 8) ∧
      (∀ c, capabilitiesFromVersion v = .ok c →
        (c.supports_safe_area = true ↔ 11 ≤ v.major)) ∧
      (isFatal (sharedDefaultFromVersion v) = true ↔ v.major < 8) ∧
      (∀ sh, sharedDefaultFromVersion v = .ok sh →
        sh = { shared := .unconfiguredWindow,
               os_version := { major := v.major, minor := v.minor } }) := by
  intro v
  refine ⟨?_, ?_, ?_, ?_⟩
  · by_cases h : 8 ≤ v.major
    all_goals simp [capabilitiesFromVersion, isFatal, h]
    all_goals omega
  · intro c hc
    by_cases h : 8 ≤ v.major
    · simp [capabilitiesFromVersion, h] at hc
      subst hc
      simp
    · simp [capabilitiesFromVersion, h] at hc
  · by_cases h : 8 ≤ v.major
    all_goals simp [sharedDefaultFromVersion, isFatal, h]
    all_goals omega
  · intro sh hsh
    by_cases h : 8 ≤ v.major
    · simp [sharedDefaultFromVersion, h] at hsh
      exact hsh.symm
    · simp [sharedDefaultFromVersion, h] at hsh

theorem c10_capabilities_from_version_witness :
    Capabilities.supports_safe_area { supports_safe_area := true } = true ↔
      11 ≤ NSOperatingSystemVersion.major ⟨12, 3, 0⟩ :=
  (c10_capabilities_from_version ⟨12, 3, 0⟩).2.1 { supports_safe_area := true } (by rfl)

/-- C1: starting from the initial `NotLaunched` state, every sequence of
lifecycle operations that completes without a fatal error visits phases only
along the edges `NotLaunched → Launching → ProcessingEvents ⇄ (Waiting |
PollFinished) → Terminated` recorded by `phaseAllowed`; in particular no
successful operation leaves `Terminated` or re-enters `NotLaunched` or
`Launching`. -/
theorem c1_phase_monotonicity (ops : List Op) (s' : AppState)
    (h : runOps ops initialAppState = Except.ok s') :
    List.Chain' (fun a b => phaseAllowed a b = true) (visits ops initialAppState) :=
  visits_chain ops initialAppState s' h

theorem c1_phase_monotonicity_witness :
    List.Chain' (fun a b => phaseAllowed a b = true)
      (visits
        [Op.willLaunch,
         Op.didFinishLaunching (fun _ => 0) [] (fun _ c => c),
         Op.handleEventsCleared 5 100 (fun _ c => c),
         Op.handleWakeup 6 (fun _ c => c),
         Op.terminate (fun _ c => c)]
        initialAppState) :=
  c1_phase_monotonicity _ ⟨.terminated, .poll, ⟨.farFuture⟩⟩ (by rfl)

end WinitIOS
